import Mathlib

/-!
Shallow embedding of the aggregation-and-comparison pipeline of `app.py`
(the CMS-synthetic vs LDS claims dashboard).  Input tables are lists of row
structures; the pandas operations the dashboard uses — `groupby(...).sum()`,
`unstack(fill_value=0)` / `pivot_table(..., fill_value=0)`, the appended
total column, percentage normalization, `Index.map` / `Series.replace`
renaming, boolean-mask filtering of the sorted grouped table, and
`pd.to_datetime(..., format="%Y%m")` — are modelled as executable functions,
and the specification's claims about them are settled by the theorems in the
second half of the file.
-/

namespace CmsApp

/-! ### Generic groupby-sum (pandas `df.groupby(keys)[value].sum()`) -/

section Aggregate

variable {ρ κ : Type} [DecidableEq κ]

/-- One accumulation step of a groupby-sum: fold `(k, c)` into an
association list, adding `c` onto the entry for `k` when one exists and
appending a fresh entry otherwise. -/
def addRow : List (κ × Nat) → κ → Nat → List (κ × Nat)
  | [], k, c => [(k, c)]
  | (k', c') :: rest, k, c =>
    if k = k' then (k', c' + c) :: rest else (k', c') :: addRow rest k c

/-- pandas `df.groupby(key)[val].sum()`: one entry per distinct key tuple
observed in `rows` (in order of first appearance), whose value is the exact
natural-number sum of `val` over the rows of that group.  pandas sums int64
counts exactly, so ℕ addition is the faithful model. -/
def aggregate (key : ρ → κ) (val : ρ → Nat) (rows : List ρ) : List (κ × Nat) :=
  rows.foldl (fun acc r => addRow acc (key r) (val r)) []

/-- The key column of an aggregation result. -/
def keysOf (l : List (κ × Nat)) : List κ := l.map Prod.fst

/-- Sum of the values of the entries whose key satisfies `q`. -/
def qsum (q : κ → Bool) (l : List (κ × Nat)) : Nat :=
  ((l.filter fun e => q e.1).map fun e => e.2).sum

/-- Cell lookup with `fill_value=0`: the value stored at key `k`, and `0`
when the key is absent (pandas `unstack(fill_value=0)` /
`pivot_table(..., fill_value=0)` fill).  Because `aggregate` never produces
duplicate keys this is the value of the unique entry at `k`. -/
def lookup0 (l : List (κ × Nat)) (k : κ) : Nat := qsum (fun k' => k' = k) l

end Aggregate

/-! ### Percentage normalization -/

/-- `cell / total * 100` as an exact rational. -/
def pctQ (num den : Nat) : ℚ := (num : ℚ) / (den : ℚ) * 100

/-- The normalized cell as pandas computes it with float division:
`summary_table.div(summary_table["total"], axis=0) * 100`.  A zero
denominator produces the defined IEEE sentinel (NaN for `0/0`, ±inf
otherwise) that pandas propagates as an ordinary value — never a raised
`ZeroDivisionError`; the sentinel outcome is modelled as `none`. -/
def pctOpt (num den : Nat) : Option ℚ := if den = 0 then none else some (pctQ num den)

/-! ### Claim Type section (`app.py` lines 58–103) -/

/-- A row of `data/claim_count_by_type.csv` after lower-casing the header. -/
structure CTRow where
  data_source : String
  claim_type : String
  year_month : Nat
  claim_count : Nat
deriving DecidableEq

/-- Grouping key of line 67: `groupby(["data_source", "claim_type"])`. -/
def ctKey (r : CTRow) : String × String := (r.data_source, r.claim_type)

/-- Lines 66–68: `df.groupby(["data_source", "claim_type"])["claim_count"].sum()`. -/
def ctAgg (df : List CTRow) : List ((String × String) × Nat) :=
  aggregate ctKey (fun r => r.claim_count) df

/-- The distinct claim types observed: the columns `unstack` creates. -/
def ctCats (df : List CTRow) : List String := (df.map fun r => r.claim_type).dedup

/-- The distinct data sources observed: the index of the unstacked table. -/
def ctSources (df : List CTRow) : List String := (df.map fun r => r.data_source).dedup

/-- A cell of the unstacked table (line 71, `fill_value=0`). -/
def ctCell (df : List CTRow) (ds ct : String) : Nat := lookup0 (ctAgg df) (ds, ct)

/-- Line 75: `summary_table["total"] = summary_table.professional +
summary_table.institutional` — the total column sums exactly those two
category columns, not every category column present.  This is the value of
the total column on the tables where line 75 succeeds; its error path is
`ctTotalCol` below. -/
def ctTotal (df : List CTRow) (ds : String) : Nat :=
  ctCell df ds "professional" + ctCell df ds "institutional"

/-- Line 75 with its error path.  `summary_table.professional` and
`summary_table.institutional` are attribute accesses on the unstacked
table, and `unstack` creates columns only for claim types observed in the
input: when either claim type is observed nowhere, the attribute access
raises `AttributeError` and the program stops before computing any total
or division.  When both columns exist, the total column holds `ctTotal`
per data_source (a data_source's own cells may still be the fill value 0,
which is the legitimate `fill_value=0` of line 71). -/
def ctTotalCol (df : List CTRow) : Except String (String → Nat) :=
  if "professional" ∈ ctCats df then
    if "institutional" ∈ ctCats df then Except.ok fun ds => ctTotal df ds
    else Except.error "AttributeError: institutional"
  else Except.error "AttributeError: professional"

/-- The raw grouped sum of `claim_count` for one data source. -/
def ctRawSum (df : List CTRow) (ds : String) : Nat :=
  ((df.filter fun r => r.data_source = ds).map fun r => r.claim_count).sum

/-- Line 77 for one cell: `summary_table.div(summary_table["total"], axis=0) * 100`. -/
def ctPct (df : List CTRow) (ds ct : String) : Option ℚ :=
  pctOpt (ctCell df ds ct) (ctTotal df ds)

/-- The sum of the normalized percentages of every category column of one
data source (the total column excluded). -/
def ctPctSum (df : List CTRow) (ds : String) : ℚ :=
  ((ctCats df).map fun c => pctQ (ctCell df ds c) (ctTotal df ds)).sum

/-! ### Service Category section (`app.py` lines 154–203) -/

/-- A row of `data/claim_count_by_service_category_1.csv` after lower-casing. -/
structure SCRow where
  data_source : String
  service_category_1 : String
  claim_count : Nat
deriving DecidableEq

/-- Grouping key of line 167: `groupby(["data_source", "service_category_1"])`. -/
def scKey (r : SCRow) : String × String := (r.data_source, r.service_category_1)

/-- Lines 166–170: the grouped sum. -/
def scAgg (df : List SCRow) : List ((String × String) × Nat) :=
  aggregate scKey (fun r => r.claim_count) df

/-- The distinct service categories observed: the unstacked columns. -/
def scCats (df : List SCRow) : List String :=
  (df.map fun r => r.service_category_1).dedup

/-- The distinct data sources observed. -/
def scSources (df : List SCRow) : List String := (df.map fun r => r.data_source).dedup

/-- A cell of the unstacked table (line 169, `fill_value=0`). -/
def scCell (df : List SCRow) (ds c : String) : Nat := lookup0 (scAgg df) (ds, c)

/-- Line 173: `summary_table["total"] = summary_table.sum(axis=1)` — the sum
across all category columns present. -/
def scTotal (df : List SCRow) (ds : String) : Nat :=
  ((scCats df).map fun c => scCell df ds c).sum

/-- The raw grouped sum of `claim_count` for one data source. -/
def scRawSum (df : List SCRow) (ds : String) : Nat :=
  ((df.filter fun r => r.data_source = ds).map fun r => r.claim_count).sum

/-- Line 176 for one cell. -/
def scPct (df : List SCRow) (ds c : String) : Option ℚ :=
  pctOpt (scCell df ds c) (scTotal df ds)

/-- The sum of the normalized percentages of the category columns of one
data source (total column excluded). -/
def scPctSum (df : List SCRow) (ds : String) : ℚ :=
  ((scCats df).map fun c => pctQ (scCell df ds c) (scTotal df ds)).sum

/-! ### Categorical renaming (`index.map` vs `replace`) -/

/-- The fixed data_source rename dictionary used on lines 86–89, 112–115,
189–192, 240–245 and 346–351. -/
def dsRename : String → Option String := fun s =>
  if s = "cms_synthetic" then some "Synthetic"
  else if s = "medicare_lds" then some "LDS"
  else none

/-- pandas `Index.map(dict)` (lines 86–89, 189–192): a label found in the
dictionary is renamed; any other label is replaced by the missing value NaN,
modelled `none`. -/
def indexMap (m : String → Option String) (idx : List String) : List (Option String) :=
  idx.map m

/-- pandas `Series.replace(dict)` (lines 112–115): a label found in the
dictionary is replaced; any other label passes through unchanged. -/
def seriesReplace (m : String → Option String) (s : List String) : List String :=
  s.map fun x => (m x).getD x

/-! ### Table loader (`app.py` lines 45–53) -/

/-- `load_data`: `pd.read_csv` inside `try`; on success the parsed table,
on any exception `st.error(...)` (the reported message, second component)
and an empty table.  The ambient file system / parser is the `readCsv`
argument; the function itself is total — it never re-raises. -/
def load_data {α : Type} (readCsv : String → Except String (List α)) (file : String) :
    List α × Option String :=
  match readCsv file with
  | .ok t => (t, none)
  | .error e => ([], some ("An error occurred while loading the CSV file: " ++ e))

/-! ### Period parsing (`pd.to_datetime(..., format="%Y%m")`, lines 124 and 289) -/

/-- `pd.to_datetime(n, format="%Y%m")` on an integer year-month code,
modelled from CPython's `_strptime` regex semantics, which pandas uses with
`exact=True`: `%Y` consumes exactly four digits and `%m` matches
`1[0-2] | 0[1-9] | [1-9]`, after which no unconverted data may remain.  So a
6-digit code splits as `n / 100`, `n % 100` with the month required in
1..12, a 5-digit code splits as `n / 10`, `n % 10` with a single nonzero
month digit, and every other shape — in particular any invalid month part —
raises `ValueError`, modelled as `.error`. -/
def parseYearMonth (n : Nat) : Except String (Nat × Nat) :=
  if 100000 ≤ n ∧ n ≤ 999999 then
    if 1 ≤ n % 100 ∧ n % 100 ≤ 12 then .ok (n / 100, n % 100)
    else .error "time data does not match format"
  else if 10000 ≤ n ∧ n ≤ 99999 then
    if 1 ≤ n % 10 then .ok (n / 10, n % 10)
    else .error "time data does not match format"
  else .error "time data does not match format"

/-! ### Encounters section (`app.py` lines 209–379) -/

/-- A row of `data/encounters.csv` after lower-casing the header. -/
structure EncRow where
  data_source : String
  encounter_group : String
  encounter_type : String
  year_month : Nat
  claim_count : Nat
deriving DecidableEq

/-- Grouping key of the first encounters block (line 225). -/
def encKey3 (r : EncRow) : String × String × String :=
  (r.data_source, r.encounter_group, r.encounter_type)

/-- Grouping key of the second encounters block (line 283), which also
groups by `year_month`. -/
def encKey4 (r : EncRow) : String × String × String × Nat :=
  (r.data_source, r.encounter_group, r.encounter_type, r.year_month)

/-- Lines 224–228: `groupby(["data_source", "encounter_group", "encounter_type"]).sum()`. -/
def encAgg3 (df : List EncRow) : List ((String × String × String) × Nat) :=
  aggregate encKey3 (fun r => r.claim_count) df

/-- Lines 282–286: the same with `year_month` added to the grouping keys. -/
def encAgg4 (df : List EncRow) : List ((String × String × String × Nat) × Nat) :=
  aggregate encKey4 (fun r => r.claim_count) df

/-- Mean of a list of counts with `fill_value=0` for an empty cell: the
default `aggfunc="mean"` of `pivot_table`, which both encounters pivots
(lines 231 and 337) rely on — neither passes an explicit `aggfunc`. -/
def meanOf (l : List Nat) : ℚ := if l.length = 0 then 0 else (l.sum : ℚ) / (l.length : ℚ)

/-- A cell of the first encounters pivot (lines 231–236): index
`(encounter_group, encounter_type)`, columns `data_source`, the mean of the
grouped values landing in the cell (each cell receives at most the one
grouped row with that exact key). -/
def encCell1 (df : List EncRow) (g t ds : String) : ℚ :=
  meanOf (((encAgg3 df).filter fun e => e.1 = (ds, g, t)).map fun e => e.2)

/-- A cell of the second encounters pivot (lines 337–342): same index and
columns, but the grouped rows landing in a cell now span every
`year_month` of that (data_source, group, type), so the default mean
averages across months instead of summing them. -/
def encCell2 (df : List EncRow) (g t ds : String) : ℚ :=
  meanOf (((encAgg4 df).filter fun e =>
    e.1.1 = ds ∧ e.1.2.1 = g ∧ e.1.2.2.1 = t).map fun e => e.2)

/-- The pivot index: every (encounter_group, encounter_type) pair observed. -/
def encIdx (df : List EncRow) : List (String × String) :=
  (df.map fun r => (r.encounter_group, r.encounter_type)).dedup

/-- The pivot columns: every data_source observed. -/
def encCols (df : List EncRow) : List String := (df.map fun r => r.data_source).dedup

/-- The raw grouped sum for one (data_source, group, type) triple. -/
def encRawSum3 (df : List EncRow) (g t ds : String) : Nat :=
  ((df.filter fun r => encKey3 r = (ds, g, t)).map fun r => r.claim_count).sum

/-- Line 248/354: `pivoted_table["Synthetic"].sum()` — the column total a
data source's cells are normalized by. -/
def encTot1 (df : List EncRow) (ds : String) : ℚ :=
  ((encIdx df).map fun p => encCell1 df p.1 p.2 ds).sum

/-- The column total of the second pivot. -/
def encTot2 (df : List EncRow) (ds : String) : ℚ :=
  ((encIdx df).map fun p => encCell2 df p.1 p.2 ds).sum

/-- Lines 251–252: a normalized cell of the first encounters table. -/
def encPct1 (df : List EncRow) (g t ds : String) : ℚ :=
  encCell1 df g t ds / encTot1 df ds * 100

/-- Lines 357–358: a normalized cell of the second encounters table. -/
def encPct2 (df : List EncRow) (g t ds : String) : ℚ :=
  encCell2 df g t ds / encTot2 df ds * 100

/-- Lines 255–259: the appended Total row of the first table — the sum of
the normalized column. -/
def encTotalRow1 (df : List EncRow) (ds : String) : ℚ :=
  ((encIdx df).map fun p => encPct1 df p.1 p.2 ds).sum

/-- Lines 361–365: the appended Total row of the second table. -/
def encTotalRow2 (df : List EncRow) (ds : String) : ℚ :=
  ((encIdx df).map fun p => encPct2 df p.1 p.2 ds).sum

/-! ### The sorted grouped table and the time-series filter -/

/-- Code-point lexicographic comparison of character lists: the order
Python (and hence a pandas groupby over string keys) sorts strings in. -/
def charsLt : List Char → List Char → Bool
  | [], [] => false
  | [], _ :: _ => true
  | _ :: _, [] => false
  | a :: as, b :: bs =>
    decide (a.toNat < b.toNat) || (decide (a.toNat = b.toNat) && charsLt as bs)

/-- Strict code-point order on strings. -/
def strLt (s t : String) : Bool := charsLt s.data t.data

/-- Lexicographic ≤ on the grouping key
`(data_source, encounter_group, encounter_type, year_month)` — the order
pandas leaves the grouped rows in (`groupby` sorts by the full key tuple). -/
def keyLe (a b : String × String × String × Nat) : Bool :=
  strLt a.1 b.1 || (decide (a.1 = b.1) &&
    (strLt a.2.1 b.2.1 || (decide (a.2.1 = b.2.1) &&
      (strLt a.2.2.1 b.2.2.1 || (decide (a.2.2.1 = b.2.2.1) &&
        decide (a.2.2.2 ≤ b.2.2.2))))))

/-- `keyLe` on the key component of a grouped row. -/
def entryLe (a b : (String × String × String × Nat) × Nat) : Prop :=
  keyLe a.1 b.1 = true

instance : DecidableRel entryLe := fun _ _ => inferInstanceAs (Decidable (_ = _))

/-- The `summary_table` of the second encounters block as the later filter
sees it (lines 282–286): `groupby([...]).sum().reset_index()`, rows in
sorted key order. -/
def encSummary (df : List EncRow) : List ((String × String × String × Nat) × Nat) :=
  List.insertionSort entryLe (encAgg4 df)

/-- Lines 304–308: the boolean-mask filter
`summary_table[(data_source == sel) & (encounter_type == sel)]`, keeping
the table's row order. -/
def encFiltered (df : List EncRow) (sds sty : String) :
    List ((String × String × String × Nat) × Nat) :=
  (encSummary df).filter fun e => e.1.1 = sds ∧ e.1.2.2.1 = sty

/-- Period of a row of the filtered table. -/
def entryYm (e : (String × String × String × Nat) × Nat) : Nat := e.1.2.2.2

/-- Encounter group of a row of the filtered table. -/
def entryGroup (e : (String × String × String × Nat) × Nat) : String := e.1.2.1

/-! ### Concrete tables used by counterexamples and witnesses -/

/-- A claim-type table holding a claim type outside
{professional, institutional}. -/
def dfDental : List CTRow :=
  [⟨"A", "professional", 202001, 1⟩, ⟨"A", "institutional", 202001, 1⟩,
   ⟨"A", "dental", 202001, 2⟩]

/-- A claim-type table on which line 75 succeeds (both the professional
and the institutional column exist) and whose data source B nevertheless
has total 0 there: B's only claims are dental. -/
def dfZeroTotal : List CTRow :=
  [⟨"A", "professional", 202001, 1⟩, ⟨"A", "institutional", 202001, 1⟩,
   ⟨"B", "dental", 202001, 5⟩]

/-- A well-formed claim-type table. -/
def dfCtWellFormed : List CTRow :=
  [⟨"A", "professional", 202001, 8⟩, ⟨"A", "institutional", 202001, 2⟩]

/-- A small service-category table. -/
def dfScSmall : List SCRow := [⟨"A", "inpatient", 3⟩, ⟨"A", "outpatient", 1⟩]

/-- An encounters table whose encounter type `x` occurs under two encounter
groups, with the later period under the earlier group. -/
def dfEncTwoGroups : List EncRow :=
  [⟨"S", "g2", "x", 202001, 1⟩, ⟨"S", "g1", "x", 202002, 2⟩]

/-- An encounters table whose encounter type `x` occurs under one group. -/
def dfEncOneGroup : List EncRow :=
  [⟨"S", "g1", "x", 202002, 2⟩, ⟨"S", "g1", "x", 202001, 1⟩]

/-- An encounters table where one (data_source, group, type) spans two
months and another spans one month. -/
def dfEncTwoMonths : List EncRow :=
  [⟨"cms_synthetic", "g1", "x", 202001, 10⟩, ⟨"cms_synthetic", "g1", "x", 202002, 10⟩,
   ⟨"cms_synthetic", "g2", "y", 202001, 10⟩, ⟨"medicare_lds", "g1", "x", 202001, 5⟩]

/-- An encounters table with exactly one month per (data_source, group, type). -/
def dfEncSingleMonth : List EncRow :=
  [⟨"cms_synthetic", "g1", "x", 202001, 10⟩, ⟨"medicare_lds", "g1", "x", 202001, 5⟩]

/-! ## Lemmas about the generic groupby-sum -/

section AggregateLemmas

variable {ρ κ : Type} [DecidableEq κ]

theorem keysOf_cons (e : κ × Nat) (l : List (κ × Nat)) :
    keysOf (e :: l) = e.1 :: keysOf l := rfl

theorem keysOf_addRow (l : List (κ × Nat)) (k : κ) (c : Nat) :
    keysOf (addRow l k c) = if k ∈ keysOf l then keysOf l else keysOf l ++ [k] := by
  induction l with
  | nil => simp [addRow, keysOf]
  | cons e rest ih =>
    obtain ⟨k', c'⟩ := e
    by_cases h : k = k'
    · subst h
      simp [addRow, keysOf]
    · simp only [addRow, if_neg h, keysOf_cons, ih]
      by_cases h2 : k ∈ keysOf rest
      · simp [h2, List.mem_cons]
      · simp [h2, h, List.mem_cons]

theorem mem_keysOf_addRow (l : List (κ × Nat)) (k k' : κ) (c : Nat) :
    k ∈ keysOf (addRow l k' c) ↔ k ∈ keysOf l ∨ k = k' := by
  rw [keysOf_addRow]
  split
  · rename_i h
    constructor
    · exact Or.inl
    · rintro (hk | rfl)
      · exact hk
      · exact h
  · simp

theorem nodup_keysOf_addRow (l : List (κ × Nat)) (k : κ) (c : Nat)
    (h : (keysOf l).Nodup) : (keysOf (addRow l k c)).Nodup := by
  rw [keysOf_addRow]
  split
  · exact h
  · rename_i hk
    simp [List.nodup_append, h, hk]

theorem qsum_cons (q : κ → Bool) (e : κ × Nat) (l : List (κ × Nat)) :
    qsum q (e :: l) = (if q e.1 then e.2 else 0) + qsum q l := by
  simp only [qsum, List.filter_cons]
  split <;> simp

theorem qsum_addRow (q : κ → Bool) (l : List (κ × Nat)) (k : κ) (c : Nat) :
    qsum q (addRow l k c) = qsum q l + (if q k then c else 0) := by
  induction l with
  | nil =>
    simp only [addRow, qsum, List.filter_cons, List.filter_nil]
    split <;> simp
  | cons e rest ih =>
    obtain ⟨k', c'⟩ := e
    by_cases h : k = k'
    · subst h
      by_cases hq : q k <;> simp [addRow, qsum_cons, hq] <;> omega
    · by_cases hq : q k <;> simp [addRow, if_neg h, qsum_cons, ih, hq] <;> omega

theorem qsum_foldl (q : κ → Bool) (key : ρ → κ) (val : ρ → Nat) (rows : List ρ) :
    ∀ acc, qsum q (rows.foldl (fun acc r => addRow acc (key r) (val r)) acc)
      = qsum q acc + ((rows.filter fun r => q (key r)).map val).sum := by
  induction rows with
  | nil => simp
  | cons r rest ih =>
    intro acc
    simp only [List.foldl_cons, ih, qsum_addRow, List.filter_cons]
    split <;> simp <;> omega

theorem qsum_aggregate (q : κ → Bool) (key : ρ → κ) (val : ρ → Nat) (rows : List ρ) :
    qsum q (aggregate key val rows) = ((rows.filter fun r => q (key r)).map val).sum := by
  have h := qsum_foldl q key val rows []
  simpa [aggregate, qsum] using h

/-- The aggregated value at any key is the exact sum over the rows of that
group — and 0 exactly when the group is empty. -/
theorem lookup0_aggregate (key : ρ → κ) (val : ρ → Nat) (rows : List ρ) (k : κ) :
    lookup0 (aggregate key val rows) k = ((rows.filter fun r => key r = k).map val).sum := by
  rw [lookup0, qsum_aggregate]

theorem mem_keysOf_foldl (key : ρ → κ) (val : ρ → Nat) (rows : List ρ) (k : κ) :
    ∀ acc, k ∈ keysOf (rows.foldl (fun acc r => addRow acc (key r) (val r)) acc)
      ↔ k ∈ keysOf acc ∨ k ∈ rows.map key := by
  induction rows with
  | nil => simp
  | cons r rest ih =>
    intro acc
    simp only [List.foldl_cons, ih, mem_keysOf_addRow, List.map_cons, List.mem_cons]
    tauto

/-- A key appears in the aggregation iff it is observed in the rows. -/
theorem mem_keysOf_aggregate (key : ρ → κ) (val : ρ → Nat) (rows : List ρ) (k : κ) :
    k ∈ keysOf (aggregate key val rows) ↔ k ∈ rows.map key := by
  have h := mem_keysOf_foldl key val rows k []
  simpa [aggregate, keysOf] using h

theorem exists_row_of_mem_keysOf (key : ρ → κ) (val : ρ → Nat) (rows : List ρ) (k : κ)
    (h : k ∈ keysOf (aggregate key val rows)) : ∃ r ∈ rows, key r = k := by
  rw [mem_keysOf_aggregate, List.mem_map] at h
  exact h

theorem nodup_keysOf_foldl (key : ρ → κ) (val : ρ → Nat) (rows : List ρ) :
    ∀ acc, (keysOf acc).Nodup
      → (keysOf (rows.foldl (fun acc r => addRow acc (key r) (val r)) acc)).Nodup := by
  induction rows with
  | nil => exact fun _ h => h
  | cons r rest ih =>
    intro acc hacc
    exact ih _ (nodup_keysOf_addRow _ _ _ hacc)

/-- The aggregation has no duplicate keys: one entry per distinct key tuple. -/
theorem nodup_keysOf_aggregate (key : ρ → κ) (val : ρ → Nat) (rows : List ρ) :
    (keysOf (aggregate key val rows)).Nodup := by
  have h := nodup_keysOf_foldl key val rows [] (by simp [keysOf])
  simpa [aggregate] using h

theorem filter_keys_eq_nil (l : List (κ × Nat)) (k : κ) (h : k ∉ keysOf l) :
    (l.filter fun e => e.1 = k) = [] := by
  rw [List.filter_eq_nil_iff]
  intro e he
  simp only [decide_eq_true_eq]
  intro hek
  exact h (hek ▸ List.mem_map_of_mem Prod.fst he)

theorem aggregate_filter_nil (key : ρ → κ) (val : ρ → Nat) (rows : List ρ) (q : κ → Bool)
    (h : ∀ r ∈ rows, q (key r) = false) :
    ((aggregate key val rows).filter fun e => q e.1) = [] := by
  rw [List.filter_eq_nil_iff]
  intro e he
  obtain ⟨r, hr, hk⟩ :=
    exists_row_of_mem_keysOf key val rows e.1 (List.mem_map_of_mem Prod.fst he)
  rw [← hk, h r hr]
  simp

theorem lookup0_cons (e : κ × Nat) (l : List (κ × Nat)) (k : κ) :
    lookup0 (e :: l) k = (if e.1 = k then e.2 else 0) + lookup0 l k := by
  simp only [lookup0, qsum_cons, decide_eq_true_eq]

theorem lookup0_eq_zero_of_not_mem (l : List (κ × Nat)) (k : κ) (h : k ∉ keysOf l) :
    lookup0 l k = 0 := by
  simp [lookup0, qsum, filter_keys_eq_nil l k h]

/-- With no duplicate keys, filtering at a present key yields exactly the
one entry holding that key's value. -/
theorem filter_keys_single (l : List (κ × Nat)) (k : κ) (hnd : (keysOf l).Nodup)
    (hmem : k ∈ keysOf l) :
    (l.filter fun e => e.1 = k) = [(k, lookup0 l k)] := by
  induction l with
  | nil => simp [keysOf] at hmem
  | cons e rest ih =>
    obtain ⟨k0, v⟩ := e
    rw [keysOf_cons] at hnd hmem
    simp only [List.nodup_cons] at hnd
    by_cases h : k0 = k
    · subst h
      have ht : (rest.filter fun e => e.1 = k0) = [] := filter_keys_eq_nil rest k0 hnd.1
      have hl : lookup0 rest k0 = 0 := lookup0_eq_zero_of_not_mem rest k0 hnd.1
      simp [List.filter_cons, ht, lookup0_cons, hl]
    · have hm : k ∈ keysOf rest := by
        rcases List.mem_cons.mp hmem with h1 | h1
        · exact absurd h1.symm h
        · exact h1
      have hstep := ih hnd.2 hm
      simp [List.filter_cons, h, hstep, lookup0_cons]

end AggregateLemmas

/-! ## Summation helpers -/

theorem sum_map_add_nat {γ : Type} (l : List γ) (f g : γ → Nat) :
    (l.map fun x => f x + g x).sum = (l.map f).sum + (l.map g).sum := by
  induction l with
  | nil => simp
  | cons a t ih => simp [ih]; omega

theorem sum_if_zero {γ : Type} [DecidableEq γ] (cs : List γ) (b : γ) (v : Nat)
    (h : b ∉ cs) : (cs.map fun c => if b = c then v else 0).sum = 0 := by
  induction cs with
  | nil => simp
  | cons c t ih =>
    simp only [List.mem_cons, not_or] at h
    simp [h.1, ih h.2]

theorem sum_if_single {γ : Type} [DecidableEq γ] (cs : List γ) (b : γ) (v : Nat)
    (hnd : cs.Nodup) (hb : b ∈ cs) :
    (cs.map fun c => if b = c then v else 0).sum = v := by
  induction cs with
  | nil => simp at hb
  | cons c t ih =>
    simp only [List.nodup_cons] at hnd
    by_cases h : b = c
    · subst h
      simp [sum_if_zero t b v hnd.1]
    · rcases List.mem_cons.mp hb with h1 | h1
      · exact absurd h1 h
      · simp [h, ih hnd.2 h1]

/-- Partition of a sum over rows into a sum over the distinct classes the
rows fall into: no class double-counts and none is dropped. -/
theorem sum_over_classes {ρ γ : Type} [DecidableEq γ] (l : List ρ) (cs : List γ)
    (g : ρ → γ) (f : ρ → Nat) (hnd : cs.Nodup) (hm : ∀ r ∈ l, g r ∈ cs) :
    (cs.map fun c => ((l.filter fun r => g r = c).map f).sum).sum = (l.map f).sum := by
  induction l with
  | nil => simp
  | cons a t ih =>
    have ha := hm a (List.mem_cons_self a t)
    have ht : ∀ r ∈ t, g r ∈ cs := fun r hr => hm r (List.mem_cons_of_mem a hr)
    have step : ∀ c : γ, ((List.filter (fun r => decide (g r = c)) (a :: t)).map f).sum
        = (if g a = c then f a else 0) + ((t.filter fun r => g r = c).map f).sum := by
      intro c
      rw [List.filter_cons]
      by_cases h : g a = c <;> simp [h]
    simp only [step, sum_map_add_nat, sum_if_single cs (g a) (f a) hnd ha, ih ht]
    simp

theorem cast_sum_map {γ : Type} (cs : List γ) (f : γ → Nat) :
    (cs.map fun c => ((f c : Nat) : ℚ)).sum = (((cs.map f).sum : Nat) : ℚ) := by
  induction cs with
  | nil => simp
  | cons c t ih => simp [ih]

/-- Sum of the percentages of cells against their own total: exactly 100
whenever the total is the exact sum of the cells and is non-zero. -/
theorem sum_pctQ {γ : Type} (cs : List γ) (f : γ → Nat) (T : Nat)
    (hT : (cs.map f).sum = T) (h0 : T ≠ 0) :
    (cs.map fun c => pctQ (f c) T).sum = 100 := by
  have hstep : ∀ c, pctQ (f c) T = (f c : ℚ) * (100 / (T : ℚ)) := by
    intro c; rw [pctQ]; ring
  have hTQ : ((T : Nat) : ℚ) ≠ 0 := Nat.cast_ne_zero.mpr h0
  calc (cs.map fun c => pctQ (f c) T).sum
      = (cs.map fun c => (f c : ℚ) * (100 / (T : ℚ))).sum := by simp only [hstep]
    _ = (cs.map fun c => ((f c : Nat) : ℚ)).sum * (100 / (T : ℚ)) :=
        List.sum_map_mul_right cs (fun c => ((f c : Nat) : ℚ)) _
    _ = (((cs.map f).sum : Nat) : ℚ) * (100 / (T : ℚ)) := by rw [cast_sum_map]
    _ = ((T : Nat) : ℚ) * (100 / (T : ℚ)) := by rw [hT]
    _ = 100 := by field_simp

/-! ## Claim Type / Service Category pipeline lemmas -/

theorem ctCell_eq (df : List CTRow) (ds ct : String) :
    ctCell df ds ct
      = ((df.filter fun r => r.data_source = ds ∧ r.claim_type = ct).map
          fun r => r.claim_count).sum := by
  rw [ctCell, ctAgg, lookup0_aggregate]
  have h : (df.filter fun r => ctKey r = (ds, ct))
      = df.filter fun r => r.data_source = ds ∧ r.claim_type = ct :=
    List.filter_congr (by intro r _; simp [ctKey, Prod.ext_iff])
  rw [h]

theorem scCell_eq (df : List SCRow) (ds c : String) :
    scCell df ds c
      = ((df.filter fun r => r.data_source = ds ∧ r.service_category_1 = c).map
          fun r => r.claim_count).sum := by
  rw [scCell, scAgg, lookup0_aggregate]
  have h : (df.filter fun r => scKey r = (ds, c))
      = df.filter fun r => r.data_source = ds ∧ r.service_category_1 = c :=
    List.filter_congr (by intro r _; simp [scKey, Prod.ext_iff])
  rw [h]

/-- Numeric conservation across the Claim Type pivot: the cells of one data
source, summed over every category column, give back the raw grouped sum. -/
theorem ct_cats_sum_eq_rawSum (df : List CTRow) (ds : String) :
    ((ctCats df).map fun c => ctCell df ds c).sum = ctRawSum df ds := by
  have hcell : ∀ c : String, ctCell df ds c
      = (((df.filter fun r => r.data_source = ds).filter
          fun r => r.claim_type = c).map fun r => r.claim_count).sum := by
    intro c
    rw [ctCell_eq, List.filter_filter]
    apply congrArg List.sum
    apply congrArg (List.map _)
    apply List.filter_congr
    intro r _
    simp [Bool.and_comm]
  simp only [hcell]
  calc (((ctCats df)).map fun c => (((df.filter fun r => r.data_source = ds).filter
          fun r => r.claim_type = c).map fun r => r.claim_count).sum).sum
      = ((df.filter fun r => r.data_source = ds).map fun r => r.claim_count).sum := by
        apply sum_over_classes _ _ _ _ (List.nodup_dedup _)
        intro r hr
        exact List.mem_dedup.mpr (List.mem_map_of_mem _ (List.mem_of_mem_filter hr))
    _ = ctRawSum df ds := rfl

/-- Numeric conservation across the Service Category pivot. -/
theorem sc_cats_sum_eq_rawSum (df : List SCRow) (ds : String) :
    ((scCats df).map fun c => scCell df ds c).sum = scRawSum df ds := by
  have hcell : ∀ c : String, scCell df ds c
      = (((df.filter fun r => r.data_source = ds).filter
          fun r => r.service_category_1 = c).map fun r => r.claim_count).sum := by
    intro c
    rw [scCell_eq, List.filter_filter]
    apply congrArg List.sum
    apply congrArg (List.map _)
    apply List.filter_congr
    intro r _
    simp [Bool.and_comm]
  simp only [hcell]
  calc (((scCats df)).map fun c => (((df.filter fun r => r.data_source = ds).filter
          fun r => r.service_category_1 = c).map fun r => r.claim_count).sum).sum
      = ((df.filter fun r => r.data_source = ds).map fun r => r.claim_count).sum := by
        apply sum_over_classes _ _ _ _ (List.nodup_dedup _)
        intro r hr
        exact List.mem_dedup.mpr (List.mem_map_of_mem _ (List.mem_of_mem_filter hr))
    _ = scRawSum df ds := rfl

/-- When the only claim types observed are professional and institutional
(both present), the category columns are a permutation of that pair. -/
theorem ctCats_perm_pair (df : List CTRow)
    (hp : "professional" ∈ ctCats df) (hi : "institutional" ∈ ctCats df)
    (hall : ∀ r ∈ df, r.claim_type = "professional" ∨ r.claim_type = "institutional") :
    List.Perm (ctCats df) ["professional", "institutional"] := by
  apply (List.perm_ext_iff_of_nodup (List.nodup_dedup _) (by decide)).mpr
  intro a
  constructor
  · intro ha
    obtain ⟨r, hr, hrt⟩ := List.mem_map.mp (List.mem_dedup.mp ha)
    rcases hall r hr with h | h <;> simp [← hrt, h]
  · intro ha
    rcases List.mem_cons.mp ha with rfl | ha2
    · exact hp
    · rcases List.mem_cons.mp ha2 with rfl | h
      · exact hi
      · simp at h

/-- Under the same assumption, the hard-coded total column of line 75 does
equal the sum over every category column. -/
theorem ctTotal_eq_cats_sum (df : List CTRow) (ds : String)
    (hp : "professional" ∈ ctCats df) (hi : "institutional" ∈ ctCats df)
    (hall : ∀ r ∈ df, r.claim_type = "professional" ∨ r.claim_type = "institutional") :
    ctTotal df ds = ((ctCats df).map fun c => ctCell df ds c).sum := by
  have hperm := (ctCats_perm_pair df hp hi hall).map fun c => ctCell df ds c
  rw [hperm.sum_eq]
  simp [ctTotal]

/-! ## Claims C1, C2, C3, C9 -/

/-- C1: on every input table where the Claim Type total column is computed
at all — `ctTotalCol` succeeds, i.e. line 75 does not raise
`AttributeError` on a missing column — a data_source whose total is
exactly 0 gets the defined sentinel (the NaN/inf float result pandas
propagates, modelled `none`) for every category, and the normalization
itself, a total function, never raises or propagates an arithmetic
division fault.  The Service Category total (line 173, `sum(axis=1)`) has
no error path, so its part holds for every table outright. -/
theorem c1_zero_total_sentinel :
    (∀ (df : List CTRow) (tot : String → Nat), ctTotalCol df = Except.ok tot →
      ∀ ds : String, tot ds = 0 → ∀ ct, ctPct df ds ct = none) ∧
    (∀ (df : List SCRow) (ds : String), scTotal df ds = 0 →
      ∀ c, scPct df ds c = none) := by
  constructor
  · intro df tot hok ds h0 ct
    have htot : ctTotal df ds = 0 := by
      unfold ctTotalCol at hok
      split at hok
      · split at hok
        · injection hok with h
          rw [← h] at h0
          exact h0
        · exact absurd hok (by simp)
      · exact absurd hok (by simp)
    simp [ctPct, pctOpt, htot]
  · intro df ds h c
    simp [scPct, pctOpt, h]

/-- Witness for C1 at a concrete table on which line 75 succeeds (both
columns exist) while data source B has total 0: B's dental cell (5/0, the
inf sentinel) and its professional cell (0/0, the NaN sentinel) both come
out as the sentinel. -/
theorem c1_zero_total_sentinel_witness :
    ctTotalCol dfZeroTotal = Except.ok (fun ds => ctTotal dfZeroTotal ds) ∧
    ctTotal dfZeroTotal "B" = 0 ∧
    ctPct dfZeroTotal "B" "dental" = none ∧
    ctPct dfZeroTotal "B" "professional" = none := by
  have hok : ctTotalCol dfZeroTotal = Except.ok (fun ds => ctTotal dfZeroTotal ds) := by
    unfold ctTotalCol
    rw [if_pos (by decide), if_pos (by decide)]
  refine ⟨hok, by decide, ?_, ?_⟩
  · exact c1_zero_total_sentinel.1 dfZeroTotal (fun ds => ctTotal dfZeroTotal ds) hok
      "B" (by decide) "dental"
  · exact c1_zero_total_sentinel.1 dfZeroTotal (fun ds => ctTotal dfZeroTotal ds) hok
      "B" (by decide) "professional"

/-- C2 counterexample: in the Claim Type section the divisor is the
hard-coded professional+institutional column, so a table holding a third
claim type has a data_source with non-zero total whose category
percentages sum to 200, not 100 — the claim as stated is false. -/
theorem c2_percent_sum_counterexample :
    ctTotal dfDental "A" ≠ 0 ∧ ctPctSum dfDental "A" ≠ 100 := by
  constructor
  · decide
  · have hcats : ctCats dfDental = ["professional", "institutional", "dental"] := by decide
    have h1 : ctCell dfDental "A" "professional" = 1 := by decide
    have h2 : ctCell dfDental "A" "institutional" = 1 := by decide
    have h3 : ctCell dfDental "A" "dental" = 2 := by decide
    have h4 : ctTotal dfDental "A" = 2 := by decide
    simp only [ctPctSum, hcats, List.map_cons, List.map_nil, List.sum_cons,
      List.sum_nil, h1, h2, h3, h4]
    norm_num [pctQ]

/-- C2 amended: the percentages of a data_source with non-zero total sum to
exactly 100 — unconditionally for the Service Category computation (whose
total column sums every category column), and for the Claim Type
computation provided every observed claim type is professional or
institutional (both columns being present), since its total column sums
only those two. -/
theorem c2_percent_sum_amended :
    (∀ (df : List SCRow) (ds : String), scTotal df ds ≠ 0 → scPctSum df ds = 100) ∧
    (∀ (df : List CTRow) (ds : String),
      "professional" ∈ ctCats df → "institutional" ∈ ctCats df →
      (∀ r ∈ df, r.claim_type = "professional" ∨ r.claim_type = "institutional") →
      ctTotal df ds ≠ 0 → ctPctSum df ds = 100) := by
  constructor
  · intro df ds h0
    exact sum_pctQ (scCats df) (fun c => scCell df ds c) (scTotal df ds) rfl h0
  · intro df ds hp hi hall h0
    exact sum_pctQ (ctCats df) (fun c => ctCell df ds c) (ctTotal df ds)
      (ctTotal_eq_cats_sum df ds hp hi hall).symm h0

/-- Witness for the amended C2 at concrete tables. -/
theorem c2_percent_sum_amended_witness :
    (scTotal dfScSmall "A" ≠ 0 ∧ scPctSum dfScSmall "A" = 100) ∧
    (ctTotal dfCtWellFormed "A" ≠ 0 ∧ ctPctSum dfCtWellFormed "A" = 100) :=
  ⟨⟨by decide, c2_percent_sum_amended.1 dfScSmall "A" (by decide)⟩,
   ⟨by decide, c2_percent_sum_amended.2 dfCtWellFormed "A" (by decide) (by decide)
      (by decide) (by decide)⟩⟩

/-- C3 counterexample: on a table holding a dental claim type, the Claim
Type section's appended total column (professional + institutional = 2)
differs from the sum across all category columns present (4) — the claim
as stated is false for the line-75 site. -/
theorem c3_total_counterexample :
    ctTotal dfDental "A" ≠ ((ctCats dfDental).map fun c => ctCell dfDental "A" c).sum := by
  decide

/-- C3 amended: the Service Category total column equals the sum across all
category columns and the raw grouped sum for every input; numeric
conservation across the pivot holds for both sections for every input; the
Claim Type total column equals the sum across all category columns only
when every observed claim type is professional or institutional. -/
theorem c3_total_conservation_amended :
    (∀ (df : List SCRow) (ds : String),
      scTotal df ds = ((scCats df).map fun c => scCell df ds c).sum ∧
      scTotal df ds = scRawSum df ds) ∧
    (∀ (df : List CTRow) (ds : String),
      ((ctCats df).map fun c => ctCell df ds c).sum = ctRawSum df ds) ∧
    (∀ (df : List CTRow) (ds : String),
      "professional" ∈ ctCats df → "institutional" ∈ ctCats df →
      (∀ r ∈ df, r.claim_type = "professional" ∨ r.claim_type = "institutional") →
      ctTotal df ds = ((ctCats df).map fun c => ctCell df ds c).sum) := by
  refine ⟨fun df ds => ⟨rfl, ?_⟩, fun df ds => ?_, fun df ds hp hi hall => ?_⟩
  · exact sc_cats_sum_eq_rawSum df ds
  · exact ct_cats_sum_eq_rawSum df ds
  · exact ctTotal_eq_cats_sum df ds hp hi hall

/-- Witness for the amended C3 at concrete tables. -/
theorem c3_total_conservation_amended_witness :
    (scTotal dfScSmall "A" = ((scCats dfScSmall).map fun c => scCell dfScSmall "A" c).sum ∧
      scTotal dfScSmall "A" = scRawSum dfScSmall "A") ∧
    ((ctCats dfCtWellFormed).map fun c => ctCell dfCtWellFormed "A" c).sum
      = ctRawSum dfCtWellFormed "A" ∧
    ctTotal dfCtWellFormed "A"
      = ((ctCats dfCtWellFormed).map fun c => ctCell dfCtWellFormed "A" c).sum :=
  ⟨c3_total_conservation_amended.1 dfScSmall "A",
   c3_total_conservation_amended.2.1 dfCtWellFormed "A",
   c3_total_conservation_amended.2.2 dfCtWellFormed "A" (by decide) (by decide) (by decide)⟩

/-- C9: grouping by the key columns and summing the count column produces
exactly one output row per distinct key tuple observed in the input (count
1 among the output keys, 0 for unobserved tuples — nothing dropped, nothing
double-counted), and each group's value is the exact natural-number sum of
its rows' counts, pandas summing int64 counts without floating-point
accumulation.  Stated for the generic `aggregate`, which is what both cited
groupby sites (lines 66–72 and 224–228) instantiate. -/
theorem c9_groupby_exact {ρ κ : Type} [DecidableEq κ] (key : ρ → κ) (val : ρ → Nat)
    (rows : List ρ) (k : κ) :
    (keysOf (aggregate key val rows)).count k
      = (if k ∈ rows.map key then 1 else 0) ∧
    lookup0 (aggregate key val rows) k
      = ((rows.filter fun r => key r = k).map val).sum := by
  constructor
  · by_cases h : k ∈ rows.map key
    · rw [if_pos h]
      exact List.count_eq_one_of_mem (nodup_keysOf_aggregate key val rows)
        ((mem_keysOf_aggregate key val rows k).mpr h)
    · rw [if_neg h]
      exact List.count_eq_zero.mpr fun hc => h ((mem_keysOf_aggregate key val rows k).mp hc)
  · exact lookup0_aggregate key val rows k

/-! ## Encounters pivot cell lemmas -/

/-- An (index, column) combination absent from the input yields an empty
cell list in the first encounters pivot, hence the fill value 0. -/
theorem encCell1_eq_zero_of_absent (df : List EncRow) (g t ds : String)
    (h : ∀ r ∈ df,
      ¬(r.data_source = ds ∧ r.encounter_group = g ∧ r.encounter_type = t)) :
    encCell1 df g t ds = 0 := by
  have hnil : ((encAgg3 df).filter fun e => e.1 = (ds, g, t)) = [] := by
    rw [List.filter_eq_nil_iff]
    intro e he
    simp only [decide_eq_true_eq]
    intro heq
    obtain ⟨r, hr, hk⟩ := exists_row_of_mem_keysOf encKey3 (fun r => r.claim_count) df e.1
      (List.mem_map_of_mem Prod.fst he)
    apply h r hr
    have hk2 : encKey3 r = (ds, g, t) := hk.trans heq
    simpa [encKey3, Prod.ext_iff] using hk2
  simp only [encCell1, hnil]
  simp [meanOf]

/-! ## Claims C4, C5, C6, C8 -/

/-- C4 counterexample: `summary_percent.index.map({...})` (lines 86–89)
replaces a data_source label outside the expected fixed set by the missing
value NaN (`none`) — the claim that such a label is never replaced by a
missing value is false on the `Index.map` sites. -/
theorem c4_unrecognized_label_counterexample :
    indexMap dsRename ["other_source"] = [none] := by
  decide

/-- C4 amended: an unrecognized label survives only the
`Series.replace` site (line 112), which passes it through unchanged; the
`Index.map` renaming sites (lines 86–89 and 189–192) replace it by the
missing value NaN instead. -/
theorem c4_unrecognized_label_amended :
    ∀ x : String, x ≠ "cms_synthetic" → x ≠ "medicare_lds" →
      seriesReplace dsRename [x] = [x] ∧ indexMap dsRename [x] = [none] := by
  intro x h1 h2
  constructor
  · simp [seriesReplace, dsRename, h1, h2]
  · simp [indexMap, dsRename, h1, h2]

/-- Witness for the amended C4 at a concrete unrecognized label. -/
theorem c4_unrecognized_label_amended_witness :
    seriesReplace dsRename ["other_source"] = ["other_source"] ∧
      indexMap dsRename ["other_source"] = [none] :=
  c4_unrecognized_label_amended "other_source" (by decide) (by decide)

/-- C5: for every file-system behaviour and path, a successful read returns
the parsed table, and a failing read (missing, malformed or unreadable
file) returns the empty table together with the user-visible error message
— `load_data` is total, so no exception propagates to the caller. -/
theorem c5_loader_error_handling :
    ∀ {α : Type} (readCsv : String → Except String (List α)) (file : String),
      (∀ t, readCsv file = Except.ok t → load_data readCsv file = (t, none)) ∧
      (∀ e, readCsv file = Except.error e →
        load_data readCsv file
          = ([], some ("An error occurred while loading the CSV file: " ++ e))) := by
  intro α readCsv file
  constructor
  · intro t h
    simp [load_data, h]
  · intro e h
    simp [load_data, h]

/-- Witness for C5 with a concrete failing reader. -/
theorem c5_loader_error_handling_witness :
    load_data (fun _ => (Except.error "No such file" : Except String (List Nat)))
        "data/claim_count_by_type.csv"
      = ([], some ("An error occurred while loading the CSV file: " ++ "No such file")) :=
  (c5_loader_error_handling (fun _ => Except.error "No such file")
    "data/claim_count_by_type.csv").2 "No such file" rfl

/-- C6: every (row, pivot-column) combination absent from the input is
filled with exactly 0 — a total-function cell, not a missing value — in
both the Claim Type `unstack(fill_value=0)` and the Encounters
`pivot_table(..., fill_value=0)`; and no observed data_source (nor index
pair) is dropped from the pivoted table. -/
theorem c6_pivot_fill_zero :
    (∀ (df : List CTRow) (ds ct : String),
      (∀ r ∈ df, ¬(r.data_source = ds ∧ r.claim_type = ct)) → ctCell df ds ct = 0) ∧
    (∀ (df : List CTRow), ∀ r ∈ df,
      r.data_source ∈ ctSources df ∧ r.claim_type ∈ ctCats df) ∧
    (∀ (df : List EncRow) (g t ds : String),
      (∀ r ∈ df, ¬(r.data_source = ds ∧ r.encounter_group = g ∧ r.encounter_type = t)) →
      encCell1 df g t ds = 0) ∧
    (∀ (df : List EncRow), ∀ r ∈ df,
      (r.encounter_group, r.encounter_type) ∈ encIdx df ∧ r.data_source ∈ encCols df) := by
  refine ⟨fun df ds ct h => ?_, fun df r hr => ?_, encCell1_eq_zero_of_absent,
    fun df r hr => ?_⟩
  · rw [ctCell_eq]
    have hnil :
        (df.filter fun r => decide (r.data_source = ds) && decide (r.claim_type = ct)) = [] := by
      rw [List.filter_eq_nil_iff]
      intro r hr
      simpa using h r hr
    simp [hnil]
  · exact ⟨List.mem_dedup.mpr (List.mem_map_of_mem _ hr),
      List.mem_dedup.mpr (List.mem_map_of_mem _ hr)⟩
  · exact ⟨List.mem_dedup.mpr (List.mem_map_of_mem _ hr),
      List.mem_dedup.mpr (List.mem_map_of_mem _ hr)⟩

/-- Witness for C6 at concrete tables: the absent (A, dental) cell is 0 and
the absent (S, g2, y) encounter cell is 0, while observed labels stay in
the index/columns. -/
theorem c6_pivot_fill_zero_witness :
    ctCell dfCtWellFormed "A" "dental" = 0 ∧
    ("A" ∈ ctSources dfCtWellFormed ∧ "professional" ∈ ctCats dfCtWellFormed) ∧
    encCell1 dfEncTwoGroups "g2" "y" "S" = 0 ∧
    (("g2", "x") ∈ encIdx dfEncTwoGroups ∧ "S" ∈ encCols dfEncTwoGroups) :=
  ⟨c6_pivot_fill_zero.1 dfCtWellFormed "A" "dental" (by decide),
   c6_pivot_fill_zero.2.1 dfCtWellFormed ⟨"A", "professional", 202001, 8⟩ (by decide),
   c6_pivot_fill_zero.2.2.1 dfEncTwoGroups "g2" "y" "S" (by decide),
   c6_pivot_fill_zero.2.2.2 dfEncTwoGroups ⟨"S", "g2", "x", 202001, 1⟩ (by decide)⟩

/-- C8: `pd.to_datetime(..., format="%Y%m")` maps every well-formed 6-digit
year-month code `y * 100 + m` (4-digit year, month 1..12) to exactly the
calendar pair (y, m), and rejects — raises `ValueError`, modelled
`.error` — every 6-digit code whose month part is not a valid month, rather
than silently producing a wrong calendar value. -/
theorem c8_year_month_parse :
    ∀ y m : Nat, 1000 ≤ y → y ≤ 9999 → 1 ≤ m → m ≤ 12 →
      (parseYearMonth (y * 100 + m) = Except.ok (y, m) ∧
       ∀ k, k ≤ 99 → ¬(1 ≤ k ∧ k ≤ 12) →
         parseYearMonth (y * 100 + k) = Except.error "time data does not match format") := by
  intro y m hy1 hy2 hm1 hm2
  constructor
  · have h6 : 100000 ≤ y * 100 + m ∧ y * 100 + m ≤ 999999 := by omega
    have hmod : (y * 100 + m) % 100 = m := by omega
    have hdiv : (y * 100 + m) / 100 = y := by omega
    unfold parseYearMonth
    rw [if_pos h6, hmod, hdiv, if_pos ⟨hm1, hm2⟩]
  · intro k hk99 hkbad
    have h6 : 100000 ≤ y * 100 + k ∧ y * 100 + k ≤ 999999 := by omega
    have hmod : (y * 100 + k) % 100 = k := by omega
    unfold parseYearMonth
    rw [if_pos h6, hmod, if_neg hkbad]

/-- Witness for C8: 202001 parses to January 2020 and the malformed code
202013 is rejected. -/
theorem c8_year_month_parse_witness :
    parseYearMonth 202001 = Except.ok (2020, 1) ∧
    parseYearMonth 202013 = Except.error "time data does not match format" := by
  obtain ⟨h1, h2⟩ :=
    c8_year_month_parse 2020 1 (by norm_num) (by norm_num) (by norm_num) (by norm_num)
  exact ⟨h1, h2 13 (by norm_num) (by omega)⟩

/-! ## The code-point order used by the groupby sort -/

theorem char_toNat_inj {a b : Char} (h : a.toNat = b.toNat) : a = b := by
  have h2 := congrArg Char.ofNat h
  simpa [Char.ofNat_toNat] using h2

theorem charsLt_irrefl : ∀ as : List Char, charsLt as as = false := by
  intro as
  induction as with
  | nil => rfl
  | cons a t ih => simp [charsLt, ih]

theorem charsLt_trans :
    ∀ as bs cs : List Char,
      charsLt as bs = true → charsLt bs cs = true → charsLt as cs = true := by
  intro as
  induction as with
  | nil =>
    intro bs cs h1 h2
    cases bs with
    | nil => simp [charsLt] at h1
    | cons b bt =>
      cases cs with
      | nil => simp [charsLt] at h2
      | cons c ct => simp [charsLt]
  | cons a as' ih =>
    intro bs cs h1 h2
    cases bs with
    | nil => simp [charsLt] at h1
    | cons b bt =>
      cases cs with
      | nil => simp [charsLt] at h2
      | cons c ct =>
        simp only [charsLt, Bool.or_eq_true, Bool.and_eq_true, decide_eq_true_eq]
          at h1 h2 ⊢
        rcases h1 with h1 | ⟨e1, h1⟩
        · rcases h2 with h2 | ⟨e2, h2⟩
          · exact Or.inl (by omega)
          · exact Or.inl (by omega)
        · rcases h2 with h2 | ⟨e2, h2⟩
          · exact Or.inl (by omega)
          · exact Or.inr ⟨by omega, ih bt ct h1 h2⟩

theorem charsLt_trichotomy :
    ∀ as bs : List Char, charsLt as bs = true ∨ as = bs ∨ charsLt bs as = true := by
  intro as
  induction as with
  | nil =>
    intro bs
    cases bs with
    | nil => exact Or.inr (Or.inl rfl)
    | cons b bt => exact Or.inl (by simp [charsLt])
  | cons a as' ih =>
    intro bs
    cases bs with
    | nil => exact Or.inr (Or.inr (by simp [charsLt]))
    | cons b bt =>
      rcases Nat.lt_trichotomy a.toNat b.toNat with h | h | h
      · exact Or.inl (by simp [charsLt, h])
      · rcases ih bt with h2 | h2 | h2
        · exact Or.inl (by simp [charsLt, h, h2])
        · refine Or.inr (Or.inl ?_)
          rw [char_toNat_inj h, h2]
        · exact Or.inr (Or.inr (by simp [charsLt, h.symm, h2]))
      · exact Or.inr (Or.inr (by simp [charsLt, h]))

theorem strLt_trans (a b c : String) (h1 : strLt a b = true) (h2 : strLt b c = true) :
    strLt a c = true :=
  charsLt_trans _ _ _ h1 h2

theorem strLt_irrefl (s : String) : strLt s s = false :=
  charsLt_irrefl _

theorem strLt_trichotomy (s t : String) :
    strLt s t = true ∨ s = t ∨ strLt t s = true := by
  rcases charsLt_trichotomy s.data t.data with h | h | h
  · exact Or.inl h
  · refine Or.inr (Or.inl ?_)
    cases s
    cases t
    exact congrArg String.mk (by simpa using h)
  · exact Or.inr (Or.inr h)

theorem keyLe_iff (a b : String × String × String × Nat) :
    keyLe a b = true ↔
      (strLt a.1 b.1 = true ∨ (a.1 = b.1 ∧
        (strLt a.2.1 b.2.1 = true ∨ (a.2.1 = b.2.1 ∧
          (strLt a.2.2.1 b.2.2.1 = true ∨
            (a.2.2.1 = b.2.2.1 ∧ a.2.2.2 ≤ b.2.2.2)))))) := by
  simp [keyLe, Bool.or_eq_true, Bool.and_eq_true, decide_eq_true_eq]

theorem keyLe_total (a b : String × String × String × Nat) :
    keyLe a b = true ∨ keyLe b a = true := by
  rw [keyLe_iff, keyLe_iff]
  rcases strLt_trichotomy a.1 b.1 with h | h | h
  · exact Or.inl (Or.inl h)
  · rcases strLt_trichotomy a.2.1 b.2.1 with h2 | h2 | h2
    · exact Or.inl (Or.inr ⟨h, Or.inl h2⟩)
    · rcases strLt_trichotomy a.2.2.1 b.2.2.1 with h3 | h3 | h3
      · exact Or.inl (Or.inr ⟨h, Or.inr ⟨h2, Or.inl h3⟩⟩)
      · rcases Nat.le_total a.2.2.2 b.2.2.2 with h4 | h4
        · exact Or.inl (Or.inr ⟨h, Or.inr ⟨h2, Or.inr ⟨h3, h4⟩⟩⟩)
        · exact Or.inr (Or.inr ⟨h.symm, Or.inr ⟨h2.symm, Or.inr ⟨h3.symm, h4⟩⟩⟩)
      · exact Or.inr (Or.inr ⟨h.symm, Or.inr ⟨h2.symm, Or.inl h3⟩⟩)
    · exact Or.inr (Or.inr ⟨h.symm, Or.inl h2⟩)
  · exact Or.inr (Or.inl h)

theorem keyLe_trans (a b c : String × String × String × Nat)
    (h1 : keyLe a b = true) (h2 : keyLe b c = true) : keyLe a c = true := by
  rw [keyLe_iff] at h1 h2 ⊢
  rcases h1 with h1 | ⟨e1, h1⟩
  · rcases h2 with h2 | ⟨e2, h2⟩
    · exact Or.inl (strLt_trans _ _ _ h1 h2)
    · exact Or.inl (e2 ▸ h1)
  · rcases h2 with h2 | ⟨e2, h2⟩
    · rw [e1]
      exact Or.inl h2
    · refine Or.inr ⟨e1.trans e2, ?_⟩
      rcases h1 with h1 | ⟨f1, h1⟩
      · rcases h2 with h2 | ⟨f2, h2⟩
        · exact Or.inl (strLt_trans _ _ _ h1 h2)
        · exact Or.inl (f2 ▸ h1)
      · rcases h2 with h2 | ⟨f2, h2⟩
        · rw [f1]
          exact Or.inl h2
        · refine Or.inr ⟨f1.trans f2, ?_⟩
          rcases h1 with h1 | ⟨g1, h1⟩
          · rcases h2 with h2 | ⟨g2, h2⟩
            · exact Or.inl (strLt_trans _ _ _ h1 h2)
            · exact Or.inl (g2 ▸ h1)
          · rcases h2 with h2 | ⟨g2, h2⟩
            · rw [g1]
              exact Or.inl h2
            · exact Or.inr ⟨g1.trans g2, h1.trans h2⟩

/-! ## Claim C7 -/

/-- C7 counterexample: the grouped table is sorted by the full key
(data_source, encounter_group, encounter_type, year_month), so when the
selected encounter type occurs under two encounter groups the filter's
output is ordered by group first and is not sorted by period ascending —
the claim as stated is false. -/
theorem c7_sorted_counterexample :
    ¬ List.Sorted (fun a b => entryYm a ≤ entryYm b)
      (encFiltered dfEncTwoGroups "S" "x") := by
  decide

/-- C7 amended: the filter returns exactly the grouped rows matching both
selections; the rows are ordered by (encounter_group, period)
lexicographically — the residue of the groupby key order — and hence are
sorted by period ascending whenever the selected encounter type occurs
under a single encounter group, not in general. -/
theorem c7_filter_sorted_amended :
    ∀ (df : List EncRow) (sds sty : String),
      (∀ e, e ∈ encFiltered df sds sty ↔
        (e ∈ encAgg4 df ∧ e.1.1 = sds ∧ e.1.2.2.1 = sty)) ∧
      List.Sorted (fun a b => strLt (entryGroup a) (entryGroup b) = true ∨
        (entryGroup a = entryGroup b ∧ entryYm a ≤ entryYm b))
        (encFiltered df sds sty) ∧
      (∀ g0 : String, (∀ e ∈ encFiltered df sds sty, entryGroup e = g0) →
        List.Sorted (fun a b => entryYm a ≤ entryYm b) (encFiltered df sds sty)) := by
  intro df sds sty
  have hsorted : List.Sorted entryLe (encSummary df) := by
    haveI : IsTotal ((String × String × String × Nat) × Nat) entryLe :=
      ⟨fun a b => keyLe_total a.1 b.1⟩
    haveI : IsTrans ((String × String × String × Nat) × Nat) entryLe :=
      ⟨fun a b c => keyLe_trans a.1 b.1 c.1⟩
    exact List.sorted_insertionSort entryLe (encAgg4 df)
  have hmemf : ∀ e, e ∈ encFiltered df sds sty ↔
      (e ∈ encSummary df ∧ e.1.1 = sds ∧ e.1.2.2.1 = sty) := by
    intro e
    simp [encFiltered, List.mem_filter]
  have hpair : List.Sorted (fun a b => strLt (entryGroup a) (entryGroup b) = true ∨
      (entryGroup a = entryGroup b ∧ entryYm a ≤ entryYm b))
      (encFiltered df sds sty) := by
    have hp : List.Pairwise entryLe (encFiltered df sds sty) := hsorted.filter _
    apply List.Pairwise.imp_of_mem ?_ hp
    intro a b ha hb hab
    obtain ⟨-, ha1, ha3⟩ := (hmemf a).mp ha
    obtain ⟨-, hb1, hb3⟩ := (hmemf b).mp hb
    rcases (keyLe_iff a.1 b.1).mp hab with h | ⟨e1, h⟩
    · rw [ha1, hb1, strLt_irrefl] at h
      cases h
    · rcases h with h | ⟨e2, h⟩
      · exact Or.inl h
      · rcases h with h | ⟨e3, h⟩
        · rw [ha3, hb3, strLt_irrefl] at h
          cases h
        · exact Or.inr ⟨e2, h⟩
  refine ⟨?_, hpair, ?_⟩
  · intro e
    rw [hmemf e]
    have hm : e ∈ encSummary df ↔ e ∈ encAgg4 df := by
      simp [encSummary]
    tauto
  · intro g0 hg
    apply List.Pairwise.imp_of_mem ?_ hpair
    intro a b ha hb hab
    rcases hab with h | ⟨-, h⟩
    · rw [hg a ha, hg b hb, strLt_irrefl] at h
      cases h
    · exact h

/-- Witness for the amended C7 at a table whose filtered rows share one
encounter group: the output is sorted by period ascending. -/
theorem c7_filter_sorted_amended_witness :
    List.Sorted (fun a b => entryYm a ≤ entryYm b) (encFiltered dfEncOneGroup "S" "x") :=
  (c7_filter_sorted_amended dfEncOneGroup "S" "x").2.2 "g1" (by decide)

/-! ## Claim C10: the two encounter-comparison pivots -/

theorem meanOf_singleton (v : Nat) : meanOf [v] = (v : ℚ) := by
  simp [meanOf]

/-- When every (data_source, encounter_group, encounter_type) triple of the
input spans a single year_month, each cell of the second pivot averages a
one-element group and so coincides with the first pivot's cell. -/
theorem encCell2_eq_encCell1 (df : List EncRow)
    (h : ∀ r ∈ df, ∀ r2 ∈ df, encKey3 r = encKey3 r2 → r.year_month = r2.year_month)
    (g t ds : String) : encCell2 df g t ds = encCell1 df g t ds := by
  by_cases hex : ∃ r ∈ df, encKey3 r = (ds, g, t)
  · obtain ⟨r0, hr0, hk0⟩ := hex
    have hk4mem : (ds, g, t, r0.year_month) ∈ keysOf (encAgg4 df) := by
      apply (mem_keysOf_aggregate encKey4 (fun r => r.claim_count) df _).mpr
      refine List.mem_map.mpr ⟨r0, hr0, ?_⟩
      have hds : r0.data_source = ds := congrArg Prod.fst hk0
      have hgg : r0.encounter_group = g := congrArg (fun p => p.2.1) hk0
      have htt : r0.encounter_type = t := congrArg (fun p => p.2.2) hk0
      simp [encKey4, hds, hgg, htt]
    have hk3mem : (ds, g, t) ∈ keysOf (encAgg3 df) := by
      apply (mem_keysOf_aggregate encKey3 (fun r => r.claim_count) df _).mpr
      exact List.mem_map.mpr ⟨r0, hr0, hk0⟩
    have hfc : ((encAgg4 df).filter fun e =>
          e.1.1 = ds ∧ e.1.2.1 = g ∧ e.1.2.2.1 = t)
        = ((encAgg4 df).filter fun e => e.1 = (ds, g, t, r0.year_month)) := by
      apply List.filter_congr
      intro e he
      obtain ⟨r, hr, hk⟩ := exists_row_of_mem_keysOf encKey4 (fun r => r.claim_count) df e.1
        (List.mem_map_of_mem Prod.fst he)
      have hcomp : e.1.1 = r.data_source ∧ e.1.2.1 = r.encounter_group ∧
          e.1.2.2.1 = r.encounter_type ∧ e.1.2.2.2 = r.year_month := by
        rw [← hk]
        simp [encKey4]
      obtain ⟨c1, c2, c3, c4⟩ := hcomp
      rw [Bool.eq_iff_iff]
      simp only [Bool.and_eq_true, decide_eq_true_eq]
      constructor
      · rintro ⟨h1, h2, h3⟩
        have hr3 : encKey3 r = (ds, g, t) := by
          simp only [encKey3, Prod.ext_iff]
          exact ⟨c1.symm.trans h1, c2.symm.trans h2, c3.symm.trans h3⟩
        have hym : r.year_month = r0.year_month := h r hr r0 hr0 (hr3.trans hk0.symm)
        have he4 : e.1 = (e.1.1, e.1.2.1, e.1.2.2.1, e.1.2.2.2) := rfl
        rw [he4, h1, h2, h3, c4, hym]
      · intro h4
        rw [h4]
        exact ⟨rfl, rfl, rfl⟩
    have h4single : ((encAgg4 df).filter fun e => e.1 = (ds, g, t, r0.year_month))
        = [((ds, g, t, r0.year_month), lookup0 (encAgg4 df) (ds, g, t, r0.year_month))] :=
      filter_keys_single _ _ (nodup_keysOf_aggregate _ _ _) hk4mem
    have h3single : ((encAgg3 df).filter fun e => e.1 = (ds, g, t))
        = [((ds, g, t), lookup0 (encAgg3 df) (ds, g, t))] :=
      filter_keys_single _ _ (nodup_keysOf_aggregate _ _ _) hk3mem
    have hrows : (df.filter fun r => encKey4 r = (ds, g, t, r0.year_month))
        = df.filter fun r => encKey3 r = (ds, g, t) := by
      apply List.filter_congr
      intro r hr
      rw [Bool.eq_iff_iff]
      simp only [decide_eq_true_eq, encKey4, encKey3, Prod.ext_iff]
      constructor
      · rintro ⟨h1, h2, h3, -⟩
        exact ⟨h1, h2, h3⟩
      · rintro ⟨h1, h2, h3⟩
        refine ⟨h1, h2, h3, ?_⟩
        apply h r hr r0 hr0
        have hr0c : r0.data_source = ds ∧ r0.encounter_group = g ∧
            r0.encounter_type = t := by
          simpa [encKey3, Prod.ext_iff] using hk0
        simp [encKey3, Prod.ext_iff, h1, h2, h3, hr0c.1, hr0c.2.1, hr0c.2.2]
    have e2 : encCell2 df g t ds = (lookup0 (encAgg4 df) (ds, g, t, r0.year_month) : ℚ) := by
      simp only [encCell2]
      rw [hfc, h4single]
      simp [meanOf]
    have e1 : encCell1 df g t ds = (lookup0 (encAgg3 df) (ds, g, t) : ℚ) := by
      simp only [encCell1]
      rw [h3single]
      simp [meanOf]
    have hv : lookup0 (encAgg4 df) (ds, g, t, r0.year_month)
        = lookup0 (encAgg3 df) (ds, g, t) := by
      simp only [encAgg4, encAgg3]
      rw [lookup0_aggregate, lookup0_aggregate, hrows]
    rw [e2, e1, hv]
  · have h2nil : ((encAgg4 df).filter fun e =>
        e.1.1 = ds ∧ e.1.2.1 = g ∧ e.1.2.2.1 = t) = [] := by
      rw [List.filter_eq_nil_iff]
      intro e he
      obtain ⟨r, hr, hk⟩ := exists_row_of_mem_keysOf encKey4 (fun r => r.claim_count) df e.1
        (List.mem_map_of_mem Prod.fst he)
      simp only [Bool.and_eq_true, decide_eq_true_eq]
      rintro ⟨h1, h2, h3⟩
      apply hex
      refine ⟨r, hr, ?_⟩
      have hcomp : e.1.1 = r.data_source ∧ e.1.2.1 = r.encounter_group ∧
          e.1.2.2.1 = r.encounter_type := by
        rw [← hk]
        simp [encKey4]
      simp [encKey3, Prod.ext_iff, ← hcomp.1, ← hcomp.2.1, ← hcomp.2.2, h1, h2, h3]
    have h3nil : ((encAgg3 df).filter fun e => e.1 = (ds, g, t)) = [] := by
      rw [List.filter_eq_nil_iff]
      intro e he
      obtain ⟨r, hr, hk⟩ := exists_row_of_mem_keysOf encKey3 (fun r => r.claim_count) df e.1
        (List.mem_map_of_mem Prod.fst he)
      simp only [decide_eq_true_eq]
      intro heq
      exact hex ⟨r, hr, hk.trans heq⟩
    simp only [encCell2, encCell1]
    rw [h2nil, h3nil]
    simp [meanOf]

/-- C10 counterexample: on a table where one (data_source, group, type)
spans two months and another one month, the second pivot's default mean
aggregation yields 50% where the first yields 200/3 % — the two
percentage tables are not numerically identical, so the claim is false. -/
theorem c10_pivot_mean_counterexample :
    encPct1 dfEncTwoMonths "g1" "x" "cms_synthetic"
      ≠ encPct2 dfEncTwoMonths "g1" "x" "cms_synthetic" := by
  have a1 : ((encAgg3 dfEncTwoMonths).filter fun e =>
      e.1 = ("cms_synthetic", "g1", "x")).map (fun e => e.2) = [20] := by decide
  have a2 : ((encAgg3 dfEncTwoMonths).filter fun e =>
      e.1 = ("cms_synthetic", "g2", "y")).map (fun e => e.2) = [10] := by decide
  have b1 : ((encAgg4 dfEncTwoMonths).filter fun e =>
      e.1.1 = "cms_synthetic" ∧ e.1.2.1 = "g1" ∧ e.1.2.2.1 = "x").map
        (fun e => e.2) = [10, 10] := by decide
  have b2 : ((encAgg4 dfEncTwoMonths).filter fun e =>
      e.1.1 = "cms_synthetic" ∧ e.1.2.1 = "g2" ∧ e.1.2.2.1 = "y").map
        (fun e => e.2) = [10] := by decide
  have hidx : encIdx dfEncTwoMonths = [("g2", "y"), ("g1", "x")] := by decide
  have c1 : encCell1 dfEncTwoMonths "g1" "x" "cms_synthetic" = meanOf [20] :=
    congrArg meanOf a1
  have c2 : encCell1 dfEncTwoMonths "g2" "y" "cms_synthetic" = meanOf [10] :=
    congrArg meanOf a2
  have d1 : encCell2 dfEncTwoMonths "g1" "x" "cms_synthetic" = meanOf [10, 10] :=
    congrArg meanOf b1
  have d2 : encCell2 dfEncTwoMonths "g2" "y" "cms_synthetic" = meanOf [10] :=
    congrArg meanOf b2
  have m1 : meanOf [20] = 20 := by norm_num [meanOf]
  have m2 : meanOf [10] = 10 := by norm_num [meanOf]
  have m3 : meanOf [10, 10] = 10 := by norm_num [meanOf]
  have ht1 : encTot1 dfEncTwoMonths "cms_synthetic" = 30 := by
    simp only [encTot1, hidx, List.map_cons, List.map_nil, List.sum_cons, List.sum_nil]
    rw [c1, c2, m1, m2]
    norm_num
  have ht2 : encTot2 dfEncTwoMonths "cms_synthetic" = 20 := by
    simp only [encTot2, hidx, List.map_cons, List.map_nil, List.sum_cons, List.sum_nil]
    rw [d1, d2, m3, m2]
    norm_num
  simp only [encPct1, encPct2, c1, d1, ht1, ht2, m1, m3]
  norm_num

/-- C10 amended: the two encounter-comparison computations produce
numerically identical percentage tables (cells, normalized cells, and the
appended Total row) exactly under the proviso that every observed
(data_source, encounter_group, encounter_type) triple spans a single
year_month; in general the second pivot, relying on `pivot_table`'s
default mean aggregation, averages across months instead of summing them
and the tables differ. -/
theorem c10_pivot_mean_amended :
    ∀ df : List EncRow,
      (∀ r ∈ df, ∀ r2 ∈ df, encKey3 r = encKey3 r2 → r.year_month = r2.year_month) →
      ∀ g t ds : String,
        encCell2 df g t ds = encCell1 df g t ds ∧
        encPct2 df g t ds = encPct1 df g t ds ∧
        encTotalRow2 df ds = encTotalRow1 df ds := by
  intro df h g t ds
  have hcell := encCell2_eq_encCell1 df h
  have htot : encTot2 df ds = encTot1 df ds := by
    simp only [encTot2, encTot1]
    have hf : (fun p : String × String => encCell2 df p.1 p.2 ds)
        = fun p => encCell1 df p.1 p.2 ds :=
      funext fun p => hcell p.1 p.2 ds
    rw [hf]
  have hpct : ∀ g' t', encPct2 df g' t' ds = encPct1 df g' t' ds := by
    intro g' t'
    simp only [encPct2, encPct1, hcell g' t' ds, htot]
  refine ⟨hcell g t ds, hpct g t, ?_⟩
  simp only [encTotalRow2, encTotalRow1]
  have hf : (fun p : String × String => encPct2 df p.1 p.2 ds)
      = fun p => encPct1 df p.1 p.2 ds :=
    funext fun p => hpct p.1 p.2
  rw [hf]

/-- Witness for the amended C10 at a table with one month per triple. -/
theorem c10_pivot_mean_amended_witness :
    encCell2 dfEncSingleMonth "g1" "x" "cms_synthetic"
        = encCell1 dfEncSingleMonth "g1" "x" "cms_synthetic" ∧
    encPct2 dfEncSingleMonth "g1" "x" "cms_synthetic"
        = encPct1 dfEncSingleMonth "g1" "x" "cms_synthetic" ∧
    encTotalRow2 dfEncSingleMonth "cms_synthetic"
        = encTotalRow1 dfEncSingleMonth "cms_synthetic" :=
  c10_pivot_mean_amended dfEncSingleMonth (by decide) "g1" "x" "cms_synthetic"

end CmsApp
